import Mathlib

/- Shallow embedding of the job-application automation core
   (src/integrations/linkedin-scraper.ts): field-intent classification and
   answer inference, the external-application flow driver, the action
   candidate ranker, radio-group resolution, and the job-card iteration
   controller. -/

set_option maxHeartbeats 1000000
set_option maxRecDepth 100000

namespace JobAuto

/-- Does `pat` occur at the very start of `hay`? (list-level prefix test). -/
def leadsWith : (pat hay : List Char) → Bool
  | [], _ => true
  | _ :: _, [] => false
  | p :: ps, c :: cs => p == c && leadsWith ps cs

/-- JS `hay.includes(pat)`: `pat` occurs contiguously somewhere in `hay`. -/
def containsSub (hay pat : List Char) : Bool :=
  match hay with
  | [] => pat.isEmpty
  | c :: t => leadsWith pat (c :: t) || containsSub t pat

/-- JS `String.prototype.includes`. -/
def strIncludes (s pat : String) : Bool :=
  containsSub s.toList pat.toList

/-- JS `String.prototype.toLowerCase` (per-character, ASCII-faithful). -/
def lowerStr (s : String) : String :=
  ⟨s.toList.map Char.toLower⟩

/-- State for whitespace collapsing: before any word, inside a word, or in a
whitespace run that follows a word. -/
inductive NwState
  | start
  | word
  | space
  deriving DecidableEq

/-- Collapse whitespace runs to single spaces and trim both ends
(JS `replace` of whitespace-runs by one space, then `trim`). -/
def nwAux : List Char → NwState → List Char
  | [], _ => []
  | c :: cs, st =>
    if c.isWhitespace then
      nwAux cs (match st with | .start => .start | _ => .space)
    else
      match st with
      | .space => ' ' :: c :: nwAux cs .word
      | _ => c :: nwAux cs .word

/-- JS `s.replace(ws-runs, " ").trim()`. -/
def normWs (s : String) : String :=
  ⟨nwAux s.toList .start⟩

/-- Drop whitespace from both ends (JS `String.prototype.trim`). -/
def trimStr (s : String) : String :=
  ⟨((s.toList.dropWhile Char.isWhitespace).reverse.dropWhile Char.isWhitespace).reverse⟩

/-- First `n` characters (JS `substring(0, n)` on the ASCII subset). -/
def takeStr (s : String) (n : Nat) : String :=
  ⟨s.toList.take n⟩

/-- The static candidate profile (`answerHints` field of the scraper class). -/
structure AnswerHints where
  sponsorship : Bool
  relocate : Bool
  visa : String
  yearsExperience : String
  linkedInUrl : String
  portfolioUrl : String
  currentLocation : String
  deriving DecidableEq

/-- The per-posting job context (`currentJobContext`). -/
structure JobContext where
  title : String
  company : String
  location : String
  description : String
  deriving DecidableEq

/-- The detected semantic category of a form field (`detectFieldIntent`
return type). -/
inductive FieldIntent
  | salary
  | location
  | noticePeriod
  | linkedin
  | portfolio
  | experience
  | sponsorship
  | relocate
  | visa
  | generic
  deriving DecidableEq

/-- `detectFieldIntent(fieldContext, fieldType)`: ordered keyword matching,
first match wins. -/
def detectFieldIntent (fieldContext fieldType : String) : FieldIntent :=
  let context := lowerStr fieldContext
  if strIncludes context "salary" || strIncludes context "compensation" ||
      strIncludes context "ctc" then .salary
  else if strIncludes context "location" || strIncludes context "city" then .location
  else if strIncludes context "notice period" || strIncludes context "join" ||
      strIncludes context "start date" then .noticePeriod
  else if strIncludes context "linkedin" then .linkedin
  else if strIncludes context "portfolio" || strIncludes context "website" then .portfolio
  else if strIncludes context "visa" || strIncludes context "work authorization" ||
      strIncludes context "work permit" then .visa
  else if strIncludes context "sponsor" || strIncludes context "sponsorship" then .sponsorship
  else if strIncludes context "relocat" then .relocate
  else if strIncludes context "experience" || fieldType == "number" then .experience
  else .generic

/- Backtracking matcher for the salary-range regular expression used by
`getExpectedSalaryFallback`:
`(\$|usd|aud|inr|eur)\s?\d{2,3}[,\.]?\d{0,3}\s?(k|000)?\s?[-to]+\s?(\$|usd|aud|inr|eur)?\s?\d{2,3}[,\.]?\d{0,3}\s?(k|000)?`
A match state is `(matched-so-far, rest)`; each pattern piece maps a state to
the list of possible successor states in backtracking priority order. -/

/-- One match state: characters consumed so far, and the remaining input. -/
def MState := List Char × List Char

/-- A pattern piece: all successor states in priority order. -/
def MPiece := MState → List MState

/-- Empty pattern piece (matches nothing, consumes nothing). -/
def mEmpty : MPiece := fun m => [m]

/-- Literal pattern piece. -/
def mLit (s : String) : MPiece := fun m =>
  if leadsWith s.toList m.2 then [(m.1 ++ s.toList, m.2.drop s.toList.length)] else []

/-- Single character from a class. -/
def mCls (p : Char → Bool) : MPiece := fun m =>
  match m.2 with
  | c :: cs => if p c then [(m.1 ++ [c], cs)] else []
  | [] => []

/-- Sequencing of pattern pieces. -/
def mSeq (a b : MPiece) : MPiece := fun m => (a m).flatMap b

/-- Ordered alternation (first alternative preferred). -/
def mAlt (a b : MPiece) : MPiece := fun m => a m ++ b m

/-- Greedy option: with-match preferred over skip. -/
def mOpt (a : MPiece) : MPiece := fun m => a m ++ [m]

/-- Greedy one-or-more repetition of a character class: consume between 1 and
all of the maximal run, longest first. -/
def mPlusCls (p : Char → Bool) : MPiece := fun m =>
  let n := (m.2.takeWhile p).length
  (List.range n).map (fun j => (m.1 ++ m.2.take (n - j), m.2.drop (n - j)))

/-- A digit character. -/
def mDigit : MPiece := mCls Char.isDigit

/-- `\d{2,3}`, greedy. -/
def mDig23 : MPiece := mAlt (mSeq mDigit (mSeq mDigit mDigit)) (mSeq mDigit mDigit)

/-- `\d{0,3}`, greedy. -/
def mDig03 : MPiece :=
  mAlt (mSeq mDigit (mSeq mDigit mDigit)) (mAlt (mSeq mDigit mDigit) (mAlt mDigit mEmpty))

/-- `(\$|usd|aud|inr|eur)`. -/
def mCurrency : MPiece :=
  mAlt (mLit "$") (mAlt (mLit "usd") (mAlt (mLit "aud") (mAlt (mLit "inr") (mLit "eur"))))

/-- `\s?`. -/
def mWsOpt : MPiece := mOpt (mCls Char.isWhitespace)

/-- `[,\.]?`. -/
def mSepDot : MPiece := mOpt (mCls (fun c => c == ',' || c == '.'))

/-- `(k|000)?`. -/
def mK000 : MPiece := mOpt (mAlt (mLit "k") (mLit "000"))

/-- `[-to]+`. -/
def mRangeSep : MPiece := mPlusCls (fun c => c == '-' || c == 't' || c == 'o')

/-- The salary-range pattern after its mandatory currency marker. -/
def salaryTail : MPiece :=
  mSeq mWsOpt (mSeq mDig23 (mSeq mSepDot (mSeq mDig03 (mSeq mWsOpt
    (mSeq mK000 (mSeq mWsOpt (mSeq mRangeSep (mSeq mWsOpt (mSeq (mOpt mCurrency)
      (mSeq mWsOpt (mSeq mDig23 (mSeq mSepDot (mSeq mDig03 (mSeq mWsOpt mK000))))))))))))))

/-- The full salary-range pattern. -/
def salaryPattern : MPiece :=
  mSeq mCurrency salaryTail

/-- Try the salary pattern anchored at the current position; the matched text
of the highest-priority success, if any. -/
def matchSalaryAt (cs : List Char) : Option (List Char) :=
  (salaryPattern ([], cs)).head?.map (fun m => m.1)

/-- Leftmost match of the salary pattern. -/
def findSalaryAux : List Char → Option (List Char)
  | [] => matchSalaryAt []
  | c :: cs =>
    match matchSalaryAt (c :: cs) with
    | some m => some m
    | none => findSalaryAux cs

/-- JS `text.match(salary-range-regex)`, returning the matched text. -/
def findSalaryRange (s : String) : Option String :=
  (findSalaryAux s.toList).map (fun l => ⟨l⟩)

/-- `getExpectedSalaryFallback()`: explicit range from the job text if present,
else a country-keyword figure, else a generic default. -/
def getExpectedSalaryFallback (jc : JobContext) : String :=
  let text := lowerStr (jc.location ++ " " ++ jc.description)
  match findSalaryRange text with
  | some range => normWs range
  | none =>
    if strIncludes text "australia" || strIncludes text "sydney" ||
        strIncludes text "melbourne" then "AUD 130000"
    else if strIncludes text "india" || strIncludes text "bengaluru" ||
        strIncludes text "bangalore" then "3500000"
    else "140000"

/-- `getHeuristicFieldAnswer(fieldContext, fieldType)`: the configured static
value for the field, or `none` (JS `null`). -/
def getHeuristicFieldAnswer (hints : AnswerHints) (jc : JobContext)
    (fieldContext fieldType : String) : Option String :=
  let context := lowerStr fieldContext
  if strIncludes context "salary" || strIncludes context "compensation" ||
      strIncludes context "ctc" then some (getExpectedSalaryFallback jc)
  else if strIncludes context "notice period" || strIncludes context "join" ||
      strIncludes context "start date" then some "2 weeks"
  else if strIncludes context "linkedin" then
    (if hints.linkedInUrl == "" then none else some hints.linkedInUrl)
  else if strIncludes context "portfolio" || strIncludes context "website" then
    (if hints.portfolioUrl == "" then none else some hints.portfolioUrl)
  else if strIncludes context "location" || strIncludes context "city" then
    (if hints.currentLocation == "" then none else some hints.currentLocation)
  else if strIncludes context "visa" || strIncludes context "work authorization" ||
      strIncludes context "sponsor" then
    some (if hints.sponsorship then "Yes" else "No")
  else if strIncludes context "relocat" then
    some (if hints.relocate then "Yes" else "No")
  else if strIncludes context "experience" || fieldType == "number" then
    some hints.yearsExperience
  else none

/-- Anchored match of `-?\d+(\.\d+)?` at the head of the input; returns the
matched characters. -/
def numAt (cs : List Char) : Option (List Char) :=
  let (neg, rest) :=
    match cs with
    | '-' :: t => ([('-' : Char)], t)
    | _ => (([] : List Char), cs)
  let ds := rest.takeWhile Char.isDigit
  if ds.isEmpty then none
  else
    match rest.drop ds.length with
    | '.' :: t =>
      let fs := t.takeWhile Char.isDigit
      if fs.isEmpty then some (neg ++ ds) else some (neg ++ ds ++ '.' :: fs)
    | _ => some (neg ++ ds)

/-- Leftmost match of `-?\d+(\.\d+)?` (JS `compact.match(...)` first result). -/
def firstNumAux : List Char → Option (List Char)
  | [] => none
  | c :: cs =>
    match numAt (c :: cs) with
    | some m => some m
    | none => firstNumAux cs

/-- `normalizeInferredAnswer(value, fieldType)`: collapse whitespace; numeric
fields keep only the first numeric token; others are truncated to 220. -/
def normalizeInferredAnswer (value : String) (fieldType : String) : Option String :=
  if value == "" then none
  else
    let compact := normWs value
    if compact == "" then none
    else if fieldType == "number" then
      (firstNumAux compact.toList).map (fun l => (⟨l⟩ : String))
    else some (takeStr compact 220)

/-- Is `c` a JS word character (`\w`, i.e. `[A-Za-z0-9_]`)? -/
def isWordChar (c : Char) : Bool := c.isAlphanum || c == '_'

/-- Does the text contain `k` at a word boundary (`k\b`)? -/
def hasKBoundary : List Char → Bool
  | [] => false
  | ['k'] => true
  | 'k' :: c :: cs => !isWordChar c || hasKBoundary (c :: cs)
  | _ :: cs => hasKBoundary cs

/-- Does the text contain `per\s*(year|annum|hour)`? -/
def hasPerPeriod : List Char → Bool
  | [] => false
  | c :: cs =>
    (leadsWith "per".toList (c :: cs) &&
      (let r := ((c :: cs).drop 3).dropWhile Char.isWhitespace
       leadsWith "year".toList r || leadsWith "annum".toList r ||
         leadsWith "hour".toList r)) ||
    hasPerPeriod cs

/-- The salary-signal test of `isAnswerCompatibleWithIntent`
(`\$|usd|aud|inr|eur|salary|compensation|ctc|k\b|per\s*(year|annum|hour)`). -/
def hasSalarySignal (s : String) : Bool :=
  strIncludes s "$" || strIncludes s "usd" || strIncludes s "aud" ||
    strIncludes s "inr" || strIncludes s "eur" || strIncludes s "salary" ||
    strIncludes s "compensation" || strIncludes s "ctc" ||
    hasKBoundary s.toList || hasPerPeriod s.toList

/-- Does the whole string match `^-?\d+(\.\d+)?$`? -/
def isBareNumber (s : String) : Bool :=
  match numAt s.toList with
  | some m => m.length == s.toList.length
  | none => false

/-- `isAnswerCompatibleWithIntent(value, intent, fieldType)`. -/
def isAnswerCompatibleWithIntent (value : Option String) (intent : FieldIntent)
    (fieldType : String) : Bool :=
  match value with
  | none => false
  | some v =>
    if v == "" then false
    else
      let normalized := lowerStr (trimStr v)
      let salarySignal := hasSalarySignal normalized
      let digits := normalized.toList.any Char.isDigit
      if intent == .location then !salarySignal
      else if intent == .salary then salarySignal || digits
      else if intent == .experience || fieldType == "number" then
        isBareNumber normalized
      else if intent == .sponsorship || intent == .relocate || intent == .visa then
        normalized == "yes" || normalized == "no"
      else true

/-- Drop the first character when the predicate holds. -/
def dropFirstIf (p : Char → Bool) : List Char → List Char
  | [] => []
  | c :: cs => if p c then cs else c :: cs

/-- Drop the last character when the predicate holds. -/
def dropLastIf (p : Char → Bool) (l : List Char) : List Char :=
  match l.reverse with
  | [] => []
  | c :: t => if p c then t.reverse else l

/-- Is `c` a single or double quote? -/
def isQuote (c : Char) : Bool := c == '"' || c == Char.ofNat 39

/-- JS `raw.replace(leading-or-trailing-quote, "")`: strips one quote from
each end. -/
def stripEdgeQuotes (s : String) : String :=
  ⟨dropLastIf isQuote (dropFirstIf isQuote s.toList)⟩

/-- The inferred-answer cache key:
`` `${fieldType}:${fieldContext}`.substring(0, 300).toLowerCase() ``. -/
def cacheKey (fieldType fieldContext : String) : String :=
  ⟨((fieldType ++ ":" ++ fieldContext).toList.take 300).map Char.toLower⟩

/-- JS `Map.get` over an association list whose head is the newest entry. -/
def lookupCache (cache : List (String × String)) (k : String) : Option String :=
  (cache.find? (fun p => p.1 == k)).map (fun p => p.2)

/-- JS `Map.set` (newest entry shadows older ones at lookup). -/
def setCache (cache : List (String × String)) (k v : String) :
    List (String × String) :=
  (k, v) :: cache

/-- JS truthiness of a `string | null` value: neither `null` nor `""`. -/
def truthy : Option String → Bool
  | none => false
  | some s => s != ""

/-- The language-model collaborator as observed by one `inferFieldAnswer`
call: availability, whether the generate call throws, and the raw text
returned on success. -/
structure InferEnv where
  llmAvailable : Bool
  llmThrows : Bool
  llmRaw : String
  deriving DecidableEq

/-- Result of one `inferFieldAnswer` call: the answer, the updated cache, and
whether the language model was consulted. -/
structure InferResult where
  ans : Option String
  cache : List (String × String)
  consulted : Bool
  deriving DecidableEq

/-- Is the detected intent one of the heuristic-preferred categories of
`inferFieldAnswer` (`shouldPreferHeuristic`)? -/
def shouldPreferHeuristic (intent : FieldIntent) : Bool :=
  intent == .location || intent == .noticePeriod || intent == .experience ||
    intent == .linkedin || intent == .portfolio || intent == .sponsorship ||
    intent == .relocate || intent == .visa

/-- `inferFieldAnswer(fieldContext, fieldType)` over an explicit cache and an
observed language-model collaborator. -/
def inferFieldAnswer (hints : AnswerHints) (jc : JobContext) (env : InferEnv)
    (cache : List (String × String)) (fieldContext fieldType : String) :
    InferResult :=
  let key := cacheKey fieldType fieldContext
  let cached := lookupCache cache key
  if truthy cached then
    { ans := cached, cache := cache, consulted := false }
  else
    let intent := detectFieldIntent fieldContext fieldType
    let heuristic := getHeuristicFieldAnswer hints jc fieldContext fieldType
    if !env.llmAvailable then
      { ans := heuristic,
        cache := if truthy heuristic then setCache cache key (heuristic.getD "") else cache,
        consulted := false }
    else if shouldPreferHeuristic intent && truthy heuristic then
      { ans := heuristic, cache := setCache cache key (heuristic.getD ""),
        consulted := false }
    else if env.llmThrows then
      { ans := heuristic,
        cache := if truthy heuristic then setCache cache key (heuristic.getD "") else cache,
        consulted := true }
    else
      let raw := stripEdgeQuotes (trimStr env.llmRaw)
      let normalized := normalizeInferredAnswer raw fieldType
      let cleaned :=
        if isAnswerCompatibleWithIntent normalized intent fieldType then normalized
        else heuristic
      { ans := cleaned,
        cache := if truthy cleaned then setCache cache key (cleaned.getD "") else cache,
        consulted := true }

/-- Collapse whitespace runs to single spaces without trimming
(JS `replace(ws-runs, " ")` alone). -/
def collapseWs : List Char → Bool → List Char
  | [], _ => []
  | c :: cs, prevWs =>
    if c.isWhitespace then
      (if prevWs then collapseWs cs true else ' ' :: collapseWs cs true)
    else c :: collapseWs cs false

/-- `getPageFingerprint(page)`: normalized URL (query/fragment stripped), the
title, and a truncated lowercased body snippet, joined with bars; or the
literal `"closed"` for a closed page. -/
def getPageFingerprint (closed : Bool) (url title body : String) : String :=
  if closed then "closed"
  else
    let strippedUrl : List Char :=
      (url.toList.takeWhile (fun c => c != '#')).takeWhile (fun c => c != '?')
    let snippet : List Char :=
      ((collapseWs body.toList false).map Char.toLower).take 260
    ⟨strippedUrl ++ '|' :: title.toList ++ '|' :: snippet⟩

/-- `normalizeActionSignature(label)`: lowercased, whitespace-collapsed,
truncated action label. -/
def normalizeActionSignature (label : String) : String :=
  takeStr (normWs (lowerStr label)) 120

/-- `getJobKey()`: normalized lowercase `title|company|location`, truncated. -/
def getJobKey (jc : JobContext) : String :=
  takeStr (normWs (lowerStr (jc.title ++ "|" ++ jc.company ++ "|" ++ jc.location))) 240

/-- `isExternalLoginRequired(page)` as a function of the page URL and the
body text: URL login/auth tokens, or a sign-in cue together with a
credential cue in the body. -/
def isExternalLoginRequired (url bodyText : String) : Bool :=
  let u := lowerStr url
  if strIncludes u "login" || strIncludes u "sign-in" || strIncludes u "signin" ||
      strIncludes u "auth" then true
  else
    let text := lowerStr bodyText
    let hasLoginCue :=
      strIncludes text "sign in" || strIncludes text "log in" ||
        strIncludes text "create account" || strIncludes text "forgot password"
    let hasCredentialCue :=
      strIncludes text "password" || strIncludes text "continue with google" ||
        strIncludes text "continue with linkedin"
    hasLoginCue && hasCredentialCue

/-- One iteration of `completeExternalApplication` as observed through the
browser collaborator: every awaited probe of the page is an environment
field. `findAction` abstracts `findExternalActionButton(page, excl)` as a
function of the excluded signature set; `submittedAtExit` is the value of the
post-loop `isExternalApplicationSubmitted` probe when the loop exits at this
iteration. -/
structure EnvStep where
  pageClosed : Bool
  loginRequired : Bool
  verificationGate : Bool
  submittedAfterFill : Bool
  beforeFingerprint : String
  findAction : List String → Option String
  submittedAfterNoAction : Bool
  submittedAtExit : Bool
  clickSucceeds : Bool
  afterFingerprint : String

/-- Terminal status of `completeExternalApplication`. -/
inductive ExtOutcome
  | submitted
  | failed
  | skipped
  deriving DecidableEq

/-- Which return site of `completeExternalApplication` produced the result. -/
inductive ExitSite
  | closedExit
  | loginExit
  | gateExit
  | fillSubmitExit
  | noActionSubmitExit
  | noActionExit
  | clickFailExit
  | streakExit
  | fuelExit
  deriving DecidableEq

/-- Result of `completeExternalApplication`, instrumented with the return
site, the loop index at exit, and how many times the form-fill pass ran. -/
structure ExtResult where
  outcome : ExtOutcome
  site : ExitSite
  exitStep : Nat
  fills : Nat
  clickedEver : Bool
  deriving DecidableEq

/-- The per-step loop of `completeExternalApplication`, recursing on the
remaining iteration budget. State: loop index, whether any action was ever
clicked, the consecutive no-progress counter, the per-fingerprint attempted
signature sets, and the fill-pass count. -/
def extLoopAux (env : Nat → EnvStep) : Nat → Nat → Bool → Nat →
    (String → List String) → Nat → ExtResult
  | 0, step, clicked, _, _, fills =>
    { outcome :=
        if (env step).submittedAtExit then .submitted
        else if clicked then .failed else .skipped,
      site := .fuelExit, exitStep := step, fills := fills, clickedEver := clicked }
  | fuel + 1, step, clicked, streak, attempted, fills =>
    let e := env step
    if e.pageClosed then
      { outcome := .submitted, site := .closedExit, exitStep := step, fills := fills,
        clickedEver := clicked }
    else if e.loginRequired then
      { outcome := .skipped, site := .loginExit, exitStep := step, fills := fills,
        clickedEver := clicked }
    else if e.verificationGate then
      { outcome := .skipped, site := .gateExit, exitStep := step, fills := fills,
        clickedEver := clicked }
    else
      let fills1 := fills + 1
      if e.submittedAfterFill then
        { outcome := .submitted, site := .fillSubmitExit, exitStep := step,
          fills := fills1, clickedEver := clicked }
      else
        match e.findAction (attempted e.beforeFingerprint) with
        | none =>
          if e.submittedAfterNoAction then
            { outcome := .submitted, site := .noActionSubmitExit, exitStep := step,
              fills := fills1, clickedEver := clicked }
          else if e.submittedAtExit then
            { outcome := .submitted, site := .noActionExit, exitStep := step,
              fills := fills1, clickedEver := clicked }
          else
            { outcome := if clicked then .failed else .skipped,
              site := .noActionExit, exitStep := step, fills := fills1,
              clickedEver := clicked }
        | some label =>
          if !e.clickSucceeds then
            if e.submittedAtExit then
              { outcome := .submitted, site := .clickFailExit, exitStep := step,
                fills := fills1, clickedEver := clicked }
            else
              { outcome := if clicked then .failed else .skipped,
                site := .clickFailExit, exitStep := step, fills := fills1,
                clickedEver := clicked }
          else
            let clicked1 := true
            if e.afterFingerprint == e.beforeFingerprint then
              let attempted1 := fun fp =>
                if fp == e.beforeFingerprint then
                  normalizeActionSignature label :: attempted fp
                else attempted fp
              if streak + 1 ≥ 3 then
                { outcome := if clicked1 then .failed else .skipped,
                  site := .streakExit, exitStep := step, fills := fills1,
                  clickedEver := clicked1 }
              else
                extLoopAux env fuel (step + 1) clicked1 (streak + 1) attempted1 fills1
            else
              extLoopAux env fuel (step + 1) clicked1 0 attempted fills1

/-- `completeExternalApplication(externalPage)`: 14-iteration budget, nothing
clicked yet, empty attempted-signature sets. -/
def completeExternalApplication (env : Nat → EnvStep) : ExtResult :=
  extLoopAux env 14 0 false 0 (fun _ => []) 0

/-- One radio input together with its associated label text and checked
state. -/
structure RadioOption where
  label : String
  checked : Bool
  deriving DecidableEq

/-- One radio group (a `fieldset` or `role=group` element): its question text
and its radio options. All radios of a group share one name, so checking one
option unchecks the others. -/
structure RadioGroup where
  text : String
  radios : List RadioOption
  deriving DecidableEq

/-- `getPreferredAnswer(questionText)`: the preferred yes/no word for a
boolean question. -/
def getPreferredAnswer (hints : AnswerHints) (questionText : String) : String :=
  let q := lowerStr questionText
  if strIncludes q "sponsor" || strIncludes q "sponsorship" then
    (if hints.sponsorship then "yes" else "no")
  else if strIncludes q "relocat" then
    (if hints.relocate then "yes" else "no")
  else if strIncludes q "visa" || strIncludes q "work authorization" ||
      strIncludes q "work permit" then
    (if lowerStr hints.visa == "yes" then "yes" else "no")
  else "yes"

/-- Native radio-group behavior of checking option `i`: it becomes checked
and every other option of the group becomes unchecked. -/
def checkAt : List RadioOption → Nat → List RadioOption
  | [], _ => []
  | r :: rs, 0 => { r with checked := true } :: rs.map (fun x => { x with checked := false })
  | r :: rs, n + 1 => { r with checked := false } :: checkAt rs n

/-- The option index `answerRequiredBooleanQuestions` clicks in a group: the
first radio whose label contains the preferred answer, else the first
option. -/
def chosenIdx (hints : AnswerHints) (g : RadioGroup) : Nat :=
  match g.radios.findIdx?
      (fun r => strIncludes (lowerStr r.label) (getPreferredAnswer hints g.text)) with
  | some i => i
  | none => 0

/-- The effect of `answerRequiredBooleanQuestions` on one radio group. -/
def answerGroup (hints : AnswerHints) (g : RadioGroup) : RadioGroup :=
  if g.radios.isEmpty then g
  else { g with radios := checkAt g.radios (chosenIdx hints g) }

/-- `answerRequiredBooleanQuestions(root)`: resolve every radio group under
the form root. -/
def answerRequiredBooleanQuestions (hints : AnswerHints) (groups : List RadioGroup) :
    List RadioGroup :=
  groups.map (answerGroup hints)

/-- One clickable control as observed by `findExternalActionButton`. -/
structure RawCandidate where
  visible : Bool
  disabled : Bool
  textContent : String
  ariaLabel : String
  value : String
  ctype : String
  href : String
  tagName : String
  inForm : Bool
  deriving DecidableEq

/-- A ranked action candidate: its combined label text and heuristic score. -/
structure ActionCandidate where
  label : String
  score : Int
  deriving DecidableEq

/-- Informational-link keywords rejected by the ranker. -/
def isInformationalAction (combined : String) : Bool :=
  strIncludes combined "how to apply" || strIncludes combined "learn more" ||
    strIncludes combined "read more" || strIncludes combined "view details" ||
    strIncludes combined "job details" || strIncludes combined "about this role"

/-- Authentication-action keywords rejected by the ranker. -/
def isAuthAction (combined : String) : Bool :=
  strIncludes combined "sign in" || strIncludes combined "log in" ||
    strIncludes combined "create account" || strIncludes combined "register" ||
    strIncludes combined "continue with google" ||
    strIncludes combined "continue with linkedin" ||
    strIncludes combined "with linkedin" || strIncludes combined "with google" ||
    strIncludes combined "with apple" || strIncludes combined "with indeed"

/-- Negative-action keywords rejected by the ranker. -/
def isNegativeAction (combined : String) : Bool :=
  strIncludes combined "cancel" || strIncludes combined "close" ||
    strIncludes combined "discard" || strIncludes combined "back" ||
    strIncludes combined "previous"

/-- Utility-action keywords rejected by the ranker. -/
def isUtilityAction (combined : String) : Bool :=
  strIncludes combined "toggle flyout" || strIncludes combined "remove file" ||
    strIncludes combined "dropbox" || strIncludes combined "google drive" ||
    strIncludes combined "attach" || strIncludes combined "upload from" ||
    strIncludes combined "enter manually" || strIncludes combined "share" ||
    strIncludes combined "copy link"

/-- Primary progress/submission keywords accepted by the ranker. -/
def hasPrimaryActionIntent (combined : String) : Bool :=
  strIncludes combined "submit" || strIncludes combined "apply" ||
    strIncludes combined "continue" || strIncludes combined "next" ||
    strIncludes combined "review" || strIncludes combined "start" ||
    strIncludes combined "begin" || strIncludes combined "proceed" ||
    strIncludes combined "finish" || strIncludes combined "complete"

/-- Secondary accept/agree keywords accepted by the ranker. -/
def hasSecondaryActionIntent (combined : String) : Bool :=
  strIncludes combined "i accept" || strIncludes combined "accept" ||
    strIncludes combined "agree"

/-- Does `s` start with `pat`? -/
def strLeads (s pat : String) : Bool :=
  leadsWith pat.toList s.toList

/-- The keyword-tier bonus of the ranker score. -/
def tierScore (combined : String) : Int :=
  if strIncludes combined "submit application" then 120
  else if strIncludes combined "submit" then 110
  else if strIncludes combined "complete application" ||
      strIncludes combined "finish application" then 100
  else if strIncludes combined "start application" ||
      strIncludes combined "begin application" then 95
  else if strIncludes combined "apply now" then 90
  else if combined == "apply" || strLeads combined "apply " then 80
  else if strIncludes combined "send" then 78
  else if strIncludes combined "continue" || strIncludes combined "next" then 70
  else if strIncludes combined "review" then 65
  else if strIncludes combined "apply" then 45
  else 0

/-- The href-based penalty of the ranker score. -/
def hrefPenalty (href : String) (inForm : Bool) : Int :=
  if href == "" then 0
  else if strIncludes href "how-to-apply" || strIncludes href "candidate-how-to-apply" ||
      strIncludes href "/help" || strIncludes href "/faq" then -100
  else if strLeads href "http" && !strIncludes href "apply" &&
      !strIncludes href "job" && !inForm then -40
  else 0

/-- The combined signal text of a candidate: lowercased visible text,
aria-label and value, whitespace-collapsed. -/
def combinedLabel (r : RawCandidate) : String :=
  normWs (lowerStr r.textContent ++ " " ++ lowerStr r.ariaLabel ++ " " ++
    lowerStr r.value)

/-- Does the control look like a native submit control (declared type
`submit`, or a short button whose text mentions submit)? -/
def looksLikeSubmitControl (r : RawCandidate) : Bool :=
  lowerStr r.ctype == "submit" ||
    (lowerStr r.tagName == "button" && (combinedLabel r).length ≤ 24 &&
      strIncludes (combinedLabel r) "submit")

/-- The heuristic score of a candidate: structural bonuses, the keyword tier,
and href penalties. -/
def candScore (r : RawCandidate) : Int :=
  (if r.inForm then 25 else 0) +
    (if lowerStr r.tagName == "button" || lowerStr r.tagName == "input" then 10 else 0) +
    tierScore (combinedLabel r) +
    (if lowerStr r.ctype == "submit" then 40 else 0) +
    hrefPenalty (lowerStr r.href) r.inForm

/-- Filtering and scoring of one raw candidate by `findExternalActionButton`;
`none` when the candidate is rejected or scores non-positively. -/
def evalCandidate (excl : List String) (r : RawCandidate) : Option ActionCandidate :=
  if !r.visible then none
  else if r.disabled then none
  else if combinedLabel r == "" then none
  else if isInformationalAction (combinedLabel r) then none
  else if isAuthAction (combinedLabel r) then none
  else if isNegativeAction (combinedLabel r) then none
  else if isUtilityAction (combinedLabel r) then none
  else if normalizeActionSignature (combinedLabel r) ∈ excl then none
  else if !(hasPrimaryActionIntent (combinedLabel r) || looksLikeSubmitControl r ||
      hasSecondaryActionIntent (combinedLabel r)) then none
  else if candScore r ≤ 0 then none
  else some { label := combinedLabel r, score := candScore r }

/-- The language-model action picker as observed by one
`selectExternalActionWithLLM` call: availability and the (possibly invalid)
returned choice index. -/
structure PickEnv where
  available : Bool
  choice : Option Int
  deriving DecidableEq

/-- `selectExternalActionWithLLM(page, candidates)`: the candidate at the
model-chosen index when it is a valid in-range integer, else `none`. -/
def selectExternalActionWithLLM (env : PickEnv) (candidates : List ActionCandidate) :
    Option ActionCandidate :=
  if !env.available || candidates.isEmpty then none
  else
    match env.choice with
    | none => none
    | some n =>
      if 0 ≤ n && n < (candidates.length : Int) then candidates[n.toNat]?
      else none

/-- `findExternalActionButton(page, excludeSignatures)`: filter and score all
candidates of all contexts, sort stably by descending score, and let the
model pick among the top 8, falling back to the heuristic top. -/
def findExternalActionButton (env : PickEnv) (contexts : List (List RawCandidate))
    (excl : List String) : Option ActionCandidate :=
  let ranked := contexts.flatMap (fun ctx => ctx.filterMap (evalCandidate excl))
  if ranked.isEmpty then none
  else
    let sorted := ranked.mergeSort (fun a b => decide (b.score ≤ a.score))
    match sorted with
    | [] => none
    | top :: _ =>
      match selectExternalActionWithLLM env (sorted.take 8) with
      | some c => some c
      | none => some top

/-- Outcome of one Easy Apply modal flow (`completeEasyApplyFlow`). -/
inductive EasyResult
  | applied
  | manualHelp
  | failed
  deriving DecidableEq

/-- One job-card iteration of `applyEasyApplyJobs` as observed through the
browser collaborator. `throwsEarly` is an exception before the duplicate
check; `throwsLate` one after it. `fallbackExternal`/`directExternal` are the
external-flow statuses when the respective external button exists. -/
structure CardObs where
  throwsEarly : Bool
  activeCount : Nat
  ctx : JobContext
  throwsLate : Bool
  easyButton : Bool
  modalOpens : Bool
  easyResult : EasyResult
  fallbackExternal : Option ExtOutcome
  directExternal : Option ExtOutcome

/-- Session counters and the per-session duplicate-detection state of
`applyEasyApplyJobs`; `processedLog` instruments which job keys passed the
duplicate check, in order. -/
structure SessionState where
  applied : Nat
  failed : Nat
  manualHelp : Nat
  seen : List String
  processedLog : List String
  deriving DecidableEq

/-- Counter update for an external-application status. -/
def extTally (st : SessionState) (s : ExtOutcome) : SessionState :=
  match s with
  | .submitted => { st with applied := st.applied + 1 }
  | .skipped => st
  | .failed => { st with failed := st.failed + 1 }

/-- One iteration of the `applyEasyApplyJobs` card loop; the boolean is
`true` to continue the loop and `false` to break out. -/
def sessionStep (obs : CardObs) (i : Nat) (st : SessionState) : SessionState × Bool :=
  if obs.throwsEarly then ({ st with failed := st.failed + 1 }, true)
  else if obs.activeCount ≤ i then (st, false)
  else
    let key := getJobKey obs.ctx
    if key ∈ st.seen then (st, true)
    else
      let st1 := { st with seen := key :: st.seen,
                           processedLog := st.processedLog ++ [key] }
      if obs.throwsLate then ({ st1 with failed := st1.failed + 1 }, true)
      else if obs.easyButton then
        if !obs.modalOpens then
          match obs.fallbackExternal with
          | none => (st1, true)
          | some s => (extTally st1 s, true)
        else
          match obs.easyResult with
          | .applied => ({ st1 with applied := st1.applied + 1 }, true)
          | .manualHelp => ({ st1 with manualHelp := st1.manualHelp + 1 }, true)
          | .failed => ({ st1 with failed := st1.failed + 1 }, true)
      else
        match obs.directExternal with
        | none => (st1, true)
        | some s => (extTally st1 s, true)

/-- The card loop of `applyEasyApplyJobs`, recursing on the remaining
iteration budget with loop guard `i < attempts && applied < maxApplications`. -/
def runSessionAux (env : Nat → CardObs) (attempts maxApp : Nat) :
    Nat → Nat → SessionState → SessionState
  | 0, _, st => st
  | fuel + 1, i, st =>
    if i < attempts && st.applied < maxApp then
      match sessionStep (env i) i st with
      | (st1, true) => runSessionAux env attempts maxApp fuel (i + 1) st1
      | (st1, false) => st1
    else st

/-- `applyEasyApplyJobs(...)`: fresh counters and a cleared seen-key set,
`attempts = min(cardCount, max(maxApplications * 4, maxApplications))`. -/
def applyEasyApplyJobs (env : Nat → CardObs) (cardCount maxApplications : Nat) :
    SessionState :=
  let attempts := min cardCount (max (maxApplications * 4) maxApplications)
  runSessionAux env attempts maxApplications attempts 0
    { applied := 0, failed := 0, manualHelp := 0, seen := [], processedLog := [] }

/-- Modelled from the spec wording: the URL part of the login-wall test
("URL contains login/auth tokens"). -/
def urlHasAuthToken (url : String) : Bool :=
  let u := lowerStr url
  strIncludes u "login" || strIncludes u "sign-in" || strIncludes u "signin" ||
    strIncludes u "auth"

/-- Modelled from the spec wording: the body text "shows a sign-in cue". -/
def bodyHasSignInCue (bodyText : String) : Bool :=
  let text := lowerStr bodyText
  strIncludes text "sign in" || strIncludes text "log in" ||
    strIncludes text "create account" || strIncludes text "forgot password"

/-- Modelled from the spec wording: the body text "shows a credential cue". -/
def bodyHasCredentialCue (bodyText : String) : Bool :=
  let text := lowerStr bodyText
  strIncludes text "password" || strIncludes text "continue with google" ||
    strIncludes text "continue with linkedin"

/-- The login-wall characterization asserted by the claim: URL token AND both
body cues together. -/
def loginWallSpecAnd (url bodyText : String) : Bool :=
  urlHasAuthToken url && (bodyHasSignInCue bodyText && bodyHasCredentialCue bodyText)

/-- An external-flow iteration in which no terminal condition fires, an
action is always available, the click succeeds, and the page fingerprint is
unchanged by the click. -/
def noProgressIter (e : EnvStep) : Prop :=
  e.pageClosed = false ∧ e.loginRequired = false ∧ e.verificationGate = false ∧
    e.submittedAfterFill = false ∧
    (∀ excl, (e.findAction excl).isSome = true) ∧
    e.clickSucceeds = true ∧ e.afterFingerprint = e.beforeFingerprint

/-- Invariant of the card-loop state: the processed log has no duplicates and
every processed key has been recorded as seen. -/
def sessionInv (st : SessionState) : Prop :=
  st.processedLog.Nodup ∧ ∀ k ∈ st.processedLog, k ∈ st.seen

/- Concrete inputs used by the witness and counterexample theorems. -/

/-- A concrete candidate profile. -/
def hintsW : AnswerHints :=
  { sponsorship := false, relocate := false, visa := "No", yearsExperience := "3",
    linkedInUrl := "", portfolioUrl := "", currentLocation := "" }

/-- An empty job context. -/
def jcEmpty : JobContext := { title := "", company := "", location := "", description := "" }

/-- A Sydney-based job context whose text has no salary figure. -/
def jcSydney : JobContext :=
  { title := "", company := "", location := "Sydney, Australia",
    description := "Great role building distributed systems" }

/-- A reachable, responding language model that answers `Yes`. -/
def envLlmYes : InferEnv := { llmAvailable := true, llmThrows := false, llmRaw := "Yes" }

/-- An unavailable language model. -/
def envNoLlm : InferEnv := { llmAvailable := false, llmThrows := false, llmRaw := "" }

/-- An external page on which every click leaves the fingerprint unchanged. -/
def noProgEnvW : Nat → EnvStep := fun _ =>
  { pageClosed := false, loginRequired := false, verificationGate := false,
    submittedAfterFill := false, beforeFingerprint := "fp",
    findAction := fun _ => some "next", submittedAfterNoAction := false,
    submittedAtExit := false, clickSucceeds := true, afterFingerprint := "fp" }

/-- An external page that is a login wall from the first step. -/
def loginEnvW : Nat → EnvStep := fun _ =>
  { pageClosed := false, loginRequired := true, verificationGate := false,
    submittedAfterFill := false, beforeFingerprint := "fp",
    findAction := fun _ => none, submittedAfterNoAction := false,
    submittedAtExit := false, clickSucceeds := true, afterFingerprint := "fp" }

/-- Three hundred `a` characters, to push a cache key past its truncation
point. -/
def padA : String := ⟨List.replicate 300 'a'⟩

/-- A long salary-field context; differs from `ctxLong2` only beyond the
300-character cache-key prefix. -/
def ctxLong1 : String := "salary " ++ padA ++ "x"

/-- A long salary-field context; differs from `ctxLong1` only beyond the
300-character cache-key prefix. -/
def ctxLong2 : String := "salary " ++ padA ++ "y"

/-- A sponsorship radio group with an unselected Yes/No pair. -/
def groupW : RadioGroup :=
  { text := "Do you require sponsorship?",
    radios := [{ label := "Yes", checked := false }, { label := "No", checked := false }] }

/-- A visible, enabled submit-application button inside a form. -/
def rcSubmitW : RawCandidate :=
  { visible := true, disabled := false, textContent := "Submit Application",
    ariaLabel := "", value := "", ctype := "submit", href := "", tagName := "button",
    inForm := true }

/-- A pattern piece only ever extends the consumed text. -/
def MonoAcc (p : MPiece) : Prop :=
  ∀ a r a1 r1, (a1, r1) ∈ p (a, r) → ∃ pre, a1 = a ++ pre

/-- A job card observation that applies successfully through the modal flow. -/
def cardObsW : CardObs :=
  { throwsEarly := false, activeCount := 10,
    ctx := { title := "Engineer", company := "Acme", location := "Sydney", description := "" },
    throwsLate := false, easyButton := true, modalOpens := true,
    easyResult := .applied, fallbackExternal := none, directExternal := none }

/- Theorems. -/

/-- Helper: any result produced at the streak return site has outcome
`failed` and records that an action was clicked. -/
theorem extLoopAux_streak (env : Nat → EnvStep) :
    ∀ fuel step clicked streak attempted fills,
      (extLoopAux env fuel step clicked streak attempted fills).site = .streakExit →
      (extLoopAux env fuel step clicked streak attempted fills).outcome = .failed ∧
        (extLoopAux env fuel step clicked streak attempted fills).clickedEver = true := by
  intro fuel
  induction fuel with
  | zero =>
    intro step clicked streak attempted fills
    simp [extLoopAux]
  | succ f ih =>
    intro step clicked streak attempted fills
    simp only [extLoopAux]
    repeat' split
    all_goals first
      | exact ih _ _ _ _ _
      | exact absurd trivial (by assumption)
      | simp

/-- C9: when `completeExternalApplication` terminates through the
no-progress-streak check, at least one action has necessarily been clicked,
and the outcome at that return site is always `failed` (its `skipped`
alternative is unreachable). -/
theorem noProgressStreakExitAlwaysFailed (env : Nat → EnvStep)
    (h : (completeExternalApplication env).site = .streakExit) :
    (completeExternalApplication env).clickedEver = true ∧
      (completeExternalApplication env).outcome = .failed := by
  have h2 := extLoopAux_streak env 14 0 false 0 (fun _ => []) 0 h
  exact ⟨h2.2, h2.1⟩

/-- C9 witness: a page on which every click leaves the fingerprint unchanged
exits through the streak check with outcome `failed`. -/
theorem noProgressStreakExitAlwaysFailed_witness :
    (completeExternalApplication noProgEnvW).site = .streakExit ∧
      (completeExternalApplication noProgEnvW).clickedEver = true ∧
        (completeExternalApplication noProgEnvW).outcome = .failed :=
  ⟨by decide, noProgressStreakExitAlwaysFailed noProgEnvW (by decide)⟩

/-- Helper: one no-progress iteration with a non-terminal streak advances the
loop, setting the clicked flag, bumping the streak and the fill count. -/
theorem extLoopAux_noprog_step (env : Nat → EnvStep) (f step : Nat) (clicked : Bool)
    (streak : Nat) (attempted : String → List String) (fills : Nat)
    (h : noProgressIter (env step)) (hs : streak + 1 < 3) :
    ∃ attempted1,
      extLoopAux env (f + 1) step clicked streak attempted fills =
        extLoopAux env f (step + 1) true (streak + 1) attempted1 (fills + 1) := by
  obtain ⟨hc, hl, hg, hsf, hfa, hcs, hfp⟩ := h
  obtain ⟨label, hlabel⟩ :=
    Option.isSome_iff_exists.mp (hfa (attempted (env step).beforeFingerprint))
  refine ⟨fun fp => if fp == (env step).beforeFingerprint then
    normalizeActionSignature label :: attempted fp else attempted fp, ?_⟩
  simp only [extLoopAux, hc, hl, hg, hsf, hlabel, hcs, hfp]
  simp [Nat.not_le.mpr hs]

/-- Helper: a no-progress iteration reached with streak 2 terminates at the
streak return site with outcome `failed`. -/
theorem extLoopAux_noprog_last (env : Nat → EnvStep) (f step : Nat) (clicked : Bool)
    (attempted : String → List String) (fills : Nat)
    (h : noProgressIter (env step)) :
    extLoopAux env (f + 1) step clicked 2 attempted fills =
      { outcome := .failed, site := .streakExit, exitStep := step,
        fills := fills + 1, clickedEver := true } := by
  obtain ⟨hc, hl, hg, hsf, hfa, hcs, hfp⟩ := h
  obtain ⟨label, hlabel⟩ :=
    Option.isSome_iff_exists.mp (hfa (attempted (env step).beforeFingerprint))
  simp only [extLoopAux, hc, hl, hg, hsf, hlabel, hcs, hfp]
  simp

/-- C2: three consecutive clicked external-flow iterations with unchanged
page fingerprints terminate the flow at the third of them, through the
streak return site, with outcome `failed` (at least one action was clicked
there, so the `skipped` alternative of that site does not arise) — a fourth
no-progress iteration is never executed. -/
theorem threeNoProgressIterationsTerminate (env : Nat → EnvStep) (fuel k : Nat)
    (clicked : Bool) (attempted : String → List String) (fills : Nat)
    (hfuel : 3 ≤ fuel)
    (h0 : noProgressIter (env k)) (h1 : noProgressIter (env (k + 1)))
    (h2 : noProgressIter (env (k + 2))) :
    extLoopAux env fuel k clicked 0 attempted fills =
      { outcome := .failed, site := .streakExit, exitStep := k + 2,
        fills := fills + 3, clickedEver := true } := by
  obtain ⟨f, rfl⟩ : ∃ f, fuel = f + 3 := ⟨fuel - 3, by omega⟩
  obtain ⟨a1, e1⟩ := extLoopAux_noprog_step env (f + 2) k clicked 0 attempted fills h0
    (by omega)
  obtain ⟨a2, e2⟩ := extLoopAux_noprog_step env (f + 1) (k + 1) true 1 a1 (fills + 1) h1
    (by omega)
  have e3 := extLoopAux_noprog_last env f (k + 2) true a2 (fills + 2) h2
  calc extLoopAux env (f + 3) k clicked 0 attempted fills
      = extLoopAux env (f + 2) (k + 1) true 1 a1 (fills + 1) := e1
    _ = extLoopAux env (f + 1) (k + 2) true 2 a2 (fills + 2) := e2
    _ = { outcome := .failed, site := .streakExit, exitStep := k + 2,
          fills := fills + 3, clickedEver := true } := e3

/-- C2 witness: on the concrete always-no-progress page, the full external
flow terminates at step 2 with `failed`. -/
theorem threeNoProgressIterationsTerminate_witness :
    completeExternalApplication noProgEnvW =
      { outcome := .failed, site := .streakExit, exitStep := 2,
        fills := 3, clickedEver := true } :=
  threeNoProgressIterationsTerminate noProgEnvW 14 0 false (fun _ => []) 0
    (by omega)
    ⟨rfl, rfl, rfl, rfl, fun _ => rfl, rfl, rfl⟩
    ⟨rfl, rfl, rfl, rfl, fun _ => rfl, rfl, rfl⟩
    ⟨rfl, rfl, rfl, rfl, fun _ => rfl, rfl, rfl⟩

/-- C3 counterexample: on a URL containing `/login` with an empty body (no
sign-in or credential cue), the detector fires although the claimed
conjunction characterization (URL token AND both body cues) is false there,
so "exactly when both conditions hold together" fails on the code. -/
theorem loginWallDetector_counterexample :
    isExternalLoginRequired "https://jobs.example.com/login" "" = true ∧
      loginWallSpecAnd "https://jobs.example.com/login" "" = false := by
  decide

/-- C3 (amended): the detector classifies a page as a login wall exactly when
the URL contains a login/auth token OR the body shows both a sign-in cue and
a credential cue; and when it fires on the first step,
`completeExternalApplication` returns `skipped` without running any field
fill. -/
theorem loginWallDetectorCharacterization (url body : String) (env : Nat → EnvStep)
    (h1 : (env 0).pageClosed = false) (h2 : (env 0).loginRequired = true) :
    isExternalLoginRequired url body =
      (urlHasAuthToken url || (bodyHasSignInCue body && bodyHasCredentialCue body)) ∧
      completeExternalApplication env =
        { outcome := .skipped, site := .loginExit, exitStep := 0, fills := 0,
          clickedEver := false } := by
  constructor
  · simp only [isExternalLoginRequired, urlHasAuthToken, bodyHasSignInCue,
      bodyHasCredentialCue]
    split
    · next h => simp [h]
    · next h => simp [h]
  · have h14 : completeExternalApplication env =
        extLoopAux env (13 + 1) 0 false 0 (fun _ => []) 0 := rfl
    rw [h14, extLoopAux]
    simp [h1, h2]

/-- C3 witness: a concrete first-step login wall. -/
theorem loginWallDetectorCharacterization_witness :
    isExternalLoginRequired "https://careers.example.com/apply" "" =
      (urlHasAuthToken "https://careers.example.com/apply" ||
        (bodyHasSignInCue "" && bodyHasCredentialCue "")) ∧
      completeExternalApplication loginEnvW =
        { outcome := .skipped, site := .loginExit, exitStep := 0, fills := 0,
          clickedEver := false } :=
  loginWallDetectorCharacterization "https://careers.example.com/apply" "" loginEnvW
    rfl rfl

/-- C1 counterexample: the field context `work permit` detects as intent
`visa` (a heuristic-preferred intent), yet its heuristic value is null, so
the model IS consulted when available and the returned answer differs from
the model-unavailable answer. -/
theorem heuristicPreferredIntents_counterexample :
    shouldPreferHeuristic (detectFieldIntent "work permit" "text") = true ∧
      (inferFieldAnswer hintsW jcEmpty envLlmYes [] "work permit" "text").consulted
        = true ∧
      (inferFieldAnswer hintsW jcEmpty envLlmYes [] "work permit" "text").ans
        = some "Yes" ∧
      (inferFieldAnswer hintsW jcEmpty envNoLlm [] "work permit" "text").ans
        = none := by
  decide

/-- C1 (amended): on a cache miss, for a field whose detected intent is
heuristic-preferred AND whose configured heuristic value is non-null,
`inferFieldAnswer` returns the heuristic value for every language-model
environment and never consults the model. -/
theorem heuristicPreferredIntentsSkipModel (hints : AnswerHints) (jc : JobContext)
    (env : InferEnv) (cache : List (String × String)) (fc ft : String)
    (hmiss : truthy (lookupCache cache (cacheKey ft fc)) = false)
    (hpref : shouldPreferHeuristic (detectFieldIntent fc ft) = true)
    (hh : truthy (getHeuristicFieldAnswer hints jc fc ft) = true) :
    (inferFieldAnswer hints jc env cache fc ft).ans =
      getHeuristicFieldAnswer hints jc fc ft ∧
      (inferFieldAnswer hints jc env cache fc ft).consulted = false := by
  simp only [inferFieldAnswer]
  rw [hmiss]
  simp only [Bool.false_eq_true, if_false]
  cases henv : env.llmAvailable
  · simp
  · simp [hpref, hh]

/-- C1 witness: a sponsorship question with a configured answer is returned
from the heuristic without consulting an available model. -/
theorem heuristicPreferredIntentsSkipModel_witness :
    truthy (lookupCache [] (cacheKey "text" "do you require sponsorship")) = false ∧
      shouldPreferHeuristic (detectFieldIntent "do you require sponsorship" "text")
        = true ∧
      truthy (getHeuristicFieldAnswer hintsW jcEmpty "do you require sponsorship" "text")
        = true ∧
      ((inferFieldAnswer hintsW jcEmpty envLlmYes [] "do you require sponsorship"
          "text").ans =
        getHeuristicFieldAnswer hintsW jcEmpty "do you require sponsorship" "text" ∧
        (inferFieldAnswer hintsW jcEmpty envLlmYes [] "do you require sponsorship"
          "text").consulted = false) :=
  ⟨by decide, by decide, by decide,
    heuristicPreferredIntentsSkipModel hintsW jcEmpty envLlmYes []
      "do you require sponsorship" "text" (by decide) (by decide) (by decide)⟩

/-- Helper: checking an option preserves the number of options. -/
theorem checkAt_length (l : List RadioOption) (i : Nat) :
    (checkAt l i).length = l.length := by
  induction l generalizing i with
  | nil => simp [checkAt]
  | cons r rs ih =>
    cases i with
    | zero => simp [checkAt]
    | succ n => simp [checkAt, ih]

/-- Helper: a list of unchecked options has zero checked entries. -/
theorem countP_setFalse (rs : List RadioOption) :
    (rs.map (fun x => { x with checked := false })).countP (fun r => r.checked) = 0 := by
  induction rs with
  | nil => simp
  | cons r rs ih => simp [List.countP_cons, ih]

/-- Helper: checking option `i` of a nonempty group yields exactly one
checked option. -/
theorem countP_checkAt (l : List RadioOption) (i : Nat) (h : i < l.length) :
    (checkAt l i).countP (fun r => r.checked) = 1 := by
  induction l generalizing i with
  | nil => simp at h
  | cons r rs ih =>
    cases i with
    | zero => simp [checkAt, List.countP_cons, countP_setFalse]
    | succ n =>
      have hn : n < rs.length := by simpa using h
      simp [checkAt, List.countP_cons, ih n hn]

/-- Helper: the checked option after `checkAt l i` is the one at index `i`. -/
theorem checkAt_get : ∀ (l : List RadioOption) (i : Nat), i < l.length →
    ∃ hlt : i < (checkAt l i).length, ((checkAt l i).get ⟨i, hlt⟩).checked = true := by
  intro l
  induction l with
  | nil => intro i h; simp at h
  | cons r rs ih =>
    intro i h
    cases i with
    | zero => exact ⟨by simp [checkAt], rfl⟩
    | succ n =>
      obtain ⟨hlt, hget⟩ := ih n (by simpa using h)
      exact ⟨by simpa [checkAt] using hlt, by simpa [checkAt] using hget⟩

/-- Helper: the chosen option index is in range for a nonempty group. -/
theorem chosenIdx_lt (hints : AnswerHints) (g : RadioGroup) (hne : g.radios ≠ []) :
    chosenIdx hints g < g.radios.length := by
  unfold chosenIdx
  cases hf : g.radios.findIdx?
      (fun r => strIncludes (lowerStr r.label) (getPreferredAnswer hints g.text)) with
  | none => simpa [List.length_pos] using hne
  | some i => exact (List.findIdx?_eq_some_iff_findIdx_eq.mp hf).1

/-- C4: after `answerRequiredBooleanQuestions`, every group that had at least
one radio option has exactly one option checked, namely the one at the
chosen index (first label containing the preferred answer, else the first
option). -/
theorem radioGroupsAlwaysResolved (hints : AnswerHints) (groups : List RadioGroup)
    (g : RadioGroup) (hg : g ∈ groups) (hne : g.radios ≠ []) :
    ∃ g1 ∈ answerRequiredBooleanQuestions hints groups,
      g1 = answerGroup hints g ∧
      g1.radios.countP (fun r => r.checked) = 1 ∧
      ∃ hlt : chosenIdx hints g < g1.radios.length,
        (g1.radios.get ⟨chosenIdx hints g, hlt⟩).checked = true := by
  have hlt := chosenIdx_lt hints g hne
  have hradios : (answerGroup hints g).radios = checkAt g.radios (chosenIdx hints g) := by
    simp [answerGroup, hne]
  refine ⟨answerGroup hints g, ?_, rfl, ?_, ?_⟩
  · exact List.mem_map_of_mem _ hg
  · rw [hradios]
    exact countP_checkAt _ _ hlt
  · rw [hradios]
    exact checkAt_get _ _ hlt

/-- C4 witness: an unselected sponsorship group ends with exactly its `No`
option selected. -/
theorem radioGroupsAlwaysResolved_witness :
    ∃ g1 ∈ answerRequiredBooleanQuestions hintsW [groupW],
      g1 = answerGroup hintsW groupW ∧
      g1.radios.countP (fun r => r.checked) = 1 ∧
      ∃ hlt : chosenIdx hintsW groupW < g1.radios.length,
        (g1.radios.get ⟨chosenIdx hintsW groupW, hlt⟩).checked = true :=
  radioGroupsAlwaysResolved hintsW [groupW] groupW (by decide) (by decide)

/-- Helper: one card iteration either leaves the log and seen set unchanged,
or appends a previously unseen key to both. -/
theorem sessionStep_log_seen (obs : CardObs) (i : Nat) (st : SessionState) :
    ((sessionStep obs i st).1.processedLog = st.processedLog ∧
      (sessionStep obs i st).1.seen = st.seen) ∨
    (getJobKey obs.ctx ∉ st.seen ∧
      (sessionStep obs i st).1.processedLog = st.processedLog ++ [getJobKey obs.ctx] ∧
      (sessionStep obs i st).1.seen = getJobKey obs.ctx :: st.seen) := by
  simp only [sessionStep, extTally]
  repeat' split
  all_goals first
    | exact Or.inl ⟨rfl, rfl⟩
    | exact Or.inr ⟨by assumption, rfl, rfl⟩

/-- Helper: one card iteration preserves the session invariant. -/
theorem sessionStep_inv (obs : CardObs) (i : Nat) (st : SessionState)
    (h : sessionInv st) : sessionInv (sessionStep obs i st).1 := by
  obtain ⟨hnd, hsub⟩ := h
  rcases sessionStep_log_seen obs i st with ⟨hl, hs⟩ | ⟨hnot, hl, hs⟩
  · exact ⟨hl ▸ hnd, by rw [hl, hs]; exact hsub⟩
  · constructor
    · rw [hl, List.nodup_append]
      refine ⟨hnd, List.nodup_singleton _, ?_⟩
      intro a ha hb
      simp only [List.mem_singleton] at hb
      subst hb
      exact hnot (hsub _ ha)
    · rw [hl, hs]
      intro k hk
      rcases List.mem_append.mp hk with hk1 | hk1
      · exact List.mem_cons_of_mem _ (hsub k hk1)
      · simp only [List.mem_singleton] at hk1
        exact hk1 ▸ List.mem_cons_self _ _

/-- Helper: the card loop preserves the session invariant. -/
theorem runSessionAux_inv (env : Nat → CardObs) (attempts maxApp : Nat) :
    ∀ fuel i st, sessionInv st →
      sessionInv (runSessionAux env attempts maxApp fuel i st) := by
  intro fuel
  induction fuel with
  | zero => intro i st h; exact h
  | succ f ih =>
    intro i st h
    rw [runSessionAux]
    split
    · rcases hss : sessionStep (env i) i st with ⟨st1, b⟩
      have h1 : sessionInv st1 := by
        have h2 := sessionStep_inv (env i) i st h
        rw [hss] at h2
        exact h2
      cases b
      · exact h1
      · exact ih (i + 1) st1 h1
    · exact h

/-- C5: a card whose job key was already seen this session is skipped by the
iteration (state unchanged, loop continues) before any apply attempt; and
over a whole session no job key is ever processed twice (the processed log
has no duplicates). -/
theorem duplicateJobCardSkipped (obs : CardObs) (i : Nat) (st : SessionState)
    (h1 : obs.throwsEarly = false) (h2 : i < obs.activeCount)
    (h3 : getJobKey obs.ctx ∈ st.seen)
    (env : Nat → CardObs) (cardCount maxApp : Nat) :
    sessionStep obs i st = (st, true) ∧
      (applyEasyApplyJobs env cardCount maxApp).processedLog.Nodup := by
  constructor
  · simp [sessionStep, h1, h3, Nat.not_le.mpr h2]
  · have hinv := runSessionAux_inv env
      (min cardCount (max (maxApp * 4) maxApp)) maxApp
      (min cardCount (max (maxApp * 4) maxApp)) 0
      { applied := 0, failed := 0, manualHelp := 0, seen := [], processedLog := [] }
      ⟨List.nodup_nil, by simp⟩
    exact hinv.1

/-- C5 witness: a concrete duplicate card leaves the state untouched, and a
concrete session log is duplicate-free. -/
theorem duplicateJobCardSkipped_witness :
    sessionStep cardObsW 0
        { applied := 1, failed := 2, manualHelp := 3,
          seen := [getJobKey cardObsW.ctx], processedLog := [getJobKey cardObsW.ctx] } =
      ({ applied := 1, failed := 2, manualHelp := 3,
          seen := [getJobKey cardObsW.ctx], processedLog := [getJobKey cardObsW.ctx] },
        true) ∧
      (applyEasyApplyJobs (fun _ => cardObsW) 10 3).processedLog.Nodup :=
  duplicateJobCardSkipped cardObsW 0 _ (by decide) (by decide) (by simp)
    (fun _ => cardObsW) 10 3

/-- Helper: a candidate accepted by the per-candidate filter pipeline carries
none of the rejected keyword categories in its label. -/
theorem evalCandidate_filters (excl : List String) (r : RawCandidate)
    (c : ActionCandidate) (h : evalCandidate excl r = some c) :
    isInformationalAction c.label = false ∧ isAuthAction c.label = false ∧
      isNegativeAction c.label = false := by
  simp only [evalCandidate] at h
  repeat' split at h
  all_goals cases h
  all_goals simp_all

/-- Helper: the model picker only ever returns one of the candidates it was
given. -/
theorem selectLLM_mem (env : PickEnv) (cands : List ActionCandidate)
    (c : ActionCandidate) (h : selectExternalActionWithLLM env cands = some c) :
    c ∈ cands := by
  simp only [selectExternalActionWithLLM] at h
  repeat' split at h
  all_goals first
    | exact absurd h (by simp)
    | exact List.getElem?_mem h

/-- C7: `findExternalActionButton` never returns a candidate whose combined
label contains an informational ("how to apply"), authentication ("sign in"),
or negative ("cancel", "discard") keyword, whatever its score and whether the
pick came from the heuristic top or the model. -/
theorem rankerNeverPicksExcludedKeywords (env : PickEnv)
    (contexts : List (List RawCandidate)) (excl : List String) (c : ActionCandidate)
    (h : findExternalActionButton env contexts excl = some c) :
    strIncludes c.label "how to apply" = false ∧
      strIncludes c.label "sign in" = false ∧
      strIncludes c.label "cancel" = false ∧
      strIncludes c.label "discard" = false := by
  have hmem : c ∈ contexts.flatMap (fun ctx => ctx.filterMap (evalCandidate excl)) := by
    simp only [findExternalActionButton] at h
    split at h
    · exact absurd h (by simp)
    · split at h
      · exact absurd h (by simp)
      · rename_i top rest hsorted
        split at h
        · rename_i c2 hllm
          cases h
          have hs8 := selectLLM_mem _ _ _ hllm
          have hsm := List.take_subset _ _ hs8
          exact List.mem_mergeSort.mp hsm
        · cases h
          have hsm : c ∈ (contexts.flatMap
              fun ctx => List.filterMap (evalCandidate excl) ctx).mergeSort
                (fun a b => decide (b.score ≤ a.score)) := by
            rw [hsorted]
            exact List.mem_cons_self _ _
          exact List.mem_mergeSort.mp hsm
  obtain ⟨ctx, hctx, hcm⟩ := List.mem_flatMap.mp hmem
  obtain ⟨r, hr, hev⟩ := List.mem_filterMap.mp hcm
  obtain ⟨h1, h2, h3⟩ := evalCandidate_filters excl r c hev
  simp only [isInformationalAction, Bool.or_eq_false_iff, and_assoc] at h1
  simp only [isAuthAction, Bool.or_eq_false_iff, and_assoc] at h2
  simp only [isNegativeAction, Bool.or_eq_false_iff, and_assoc] at h3
  exact ⟨h1.1, h2.1, h3.1, h3.2.2.1⟩

/-- Helper: the concrete submit button is what the ranker returns on a page
holding only it. -/
theorem findExternalActionButton_rcSubmitW :
    findExternalActionButton { available := false, choice := none } [[rcSubmitW]] [] =
      some { label := "submit application", score := 195 } := by
  have hr : ([[rcSubmitW]] : List (List RawCandidate)).flatMap
      (fun ctx => ctx.filterMap (evalCandidate [])) =
      [{ label := "submit application", score := 195 }] := by decide
  simp [findExternalActionButton, hr, selectExternalActionWithLLM]

/-- C7 witness: on a page with a single submit button the ranker returns it,
and the returned label is free of the excluded keywords. -/
theorem rankerNeverPicksExcludedKeywords_witness :
    findExternalActionButton { available := false, choice := none } [[rcSubmitW]] [] =
      some { label := "submit application", score := 195 } ∧
      (strIncludes ("submit application" : String) "how to apply" = false ∧
        strIncludes ("submit application" : String) "sign in" = false ∧
        strIncludes ("submit application" : String) "cancel" = false ∧
        strIncludes ("submit application" : String) "discard" = false) :=
  ⟨findExternalActionButton_rcSubmitW,
    rankerNeverPicksExcludedKeywords { available := false, choice := none }
      [[rcSubmitW]] [] { label := "submit application", score := 195 }
      findExternalActionButton_rcSubmitW⟩

/-- Helper: the empty piece is monotone. -/
theorem monoAcc_mEmpty : MonoAcc mEmpty := by
  intro a r a1 r1 h
  simp only [mEmpty, List.mem_singleton, Prod.mk.injEq] at h
  exact ⟨[], by simp [h.1]⟩

/-- Helper: literal pieces are monotone. -/
theorem monoAcc_mLit (s : String) : MonoAcc (mLit s) := by
  intro a r a1 r1 h
  simp only [mLit] at h
  split at h
  · simp only [List.mem_singleton, Prod.mk.injEq] at h
    exact ⟨s.toList, h.1⟩
  · simp at h

/-- Helper: character-class pieces are monotone. -/
theorem monoAcc_mCls (p : Char → Bool) : MonoAcc (mCls p) := by
  intro a r a1 r1 h
  cases r with
  | nil => simp [mCls] at h
  | cons c cs =>
    simp only [mCls] at h
    split at h
    · simp only [List.mem_singleton, Prod.mk.injEq] at h
      exact ⟨[c], h.1⟩
    · simp at h

/-- Helper: sequencing preserves monotonicity. -/
theorem monoAcc_mSeq (p q : MPiece) (hp : MonoAcc p) (hq : MonoAcc q) :
    MonoAcc (mSeq p q) := by
  intro a r a1 r1 h
  simp only [mSeq, List.mem_flatMap] at h
  obtain ⟨m, hm, h1⟩ := h
  obtain ⟨am, rm⟩ := m
  obtain ⟨pre1, he1⟩ := hp a r am rm hm
  obtain ⟨pre2, he2⟩ := hq am rm a1 r1 h1
  exact ⟨pre1 ++ pre2, by rw [he2, he1, List.append_assoc]⟩

/-- Helper: alternation preserves monotonicity. -/
theorem monoAcc_mAlt (p q : MPiece) (hp : MonoAcc p) (hq : MonoAcc q) :
    MonoAcc (mAlt p q) := by
  intro a r a1 r1 h
  rcases List.mem_append.mp h with h1 | h1
  · exact hp a r a1 r1 h1
  · exact hq a r a1 r1 h1

/-- Helper: optional pieces are monotone. -/
theorem monoAcc_mOpt (p : MPiece) (hp : MonoAcc p) : MonoAcc (mOpt p) := by
  intro a r a1 r1 h
  rcases List.mem_append.mp h with h1 | h1
  · exact hp a r a1 r1 h1
  · simp only [List.mem_singleton, Prod.mk.injEq] at h1
    exact ⟨[], by simp [h1.1]⟩

/-- Helper: greedy class repetition is monotone. -/
theorem monoAcc_mPlusCls (p : Char → Bool) : MonoAcc (mPlusCls p) := by
  intro a r a1 r1 h
  simp only [mPlusCls, List.mem_map] at h
  obtain ⟨j, hj, he⟩ := h
  obtain ⟨he1, he2⟩ := Prod.mk.injEq .. ▸ he
  exact ⟨_, he1.symm⟩

/-- Helper: the whole post-currency tail of the salary pattern is monotone. -/
theorem monoAcc_salaryTail : MonoAcc salaryTail := by
  unfold salaryTail mWsOpt mDig23 mDig03 mSepDot mK000 mRangeSep mCurrency mDigit
  repeat' first
    | apply monoAcc_mSeq
    | apply monoAcc_mAlt
    | apply monoAcc_mOpt
    | exact monoAcc_mPlusCls _
    | exact monoAcc_mCls _
    | exact monoAcc_mLit _
    | exact monoAcc_mEmpty

/-- Helper: a currency-marker match consumes at least one non-whitespace
character. -/
theorem mCurrency_nonWs (a r a1 r1 : List Char) (h : (a1, r1) ∈ mCurrency (a, r)) :
    ∃ pre, a1 = a ++ pre ∧ ∃ c ∈ pre, c.isWhitespace = false := by
  simp only [mCurrency, mAlt, List.mem_append] at h
  rcases h with h | h | h | h | h
  all_goals
    simp only [mLit] at h
  all_goals
    split at h
  all_goals
    first
      | (simp only [List.mem_singleton, Prod.mk.injEq] at h
         exact ⟨_, h.1, by decide⟩)
      | simp at h

/-- Helper: any successful salary-pattern match contains a non-whitespace
character. -/
theorem salaryPattern_nonWs (cs a1 r1 : List Char)
    (h : (a1, r1) ∈ salaryPattern ([], cs)) :
    ∃ c ∈ a1, c.isWhitespace = false := by
  simp only [salaryPattern, mSeq, List.mem_flatMap] at h
  obtain ⟨m, hm, h1⟩ := h
  obtain ⟨am, rm⟩ := m
  obtain ⟨pre, hpre, c, hc, hw⟩ := mCurrency_nonWs [] cs am rm hm
  obtain ⟨pre2, hpre2⟩ := monoAcc_salaryTail am rm a1 r1 h1
  refine ⟨c, ?_, hw⟩
  rw [hpre2, hpre]
  simp [hc]

/-- Helper: an anchored salary match contains a non-whitespace character. -/
theorem matchSalaryAt_nonWs (cs m : List Char) (h : matchSalaryAt cs = some m) :
    ∃ c ∈ m, c.isWhitespace = false := by
  unfold matchSalaryAt at h
  cases hh : (salaryPattern ([], cs)).head? with
  | none => rw [hh] at h; simp at h
  | some p =>
    rw [hh] at h
    obtain ⟨a1, r1⟩ := p
    have hm : a1 = m := by simpa using h
    subst hm
    exact salaryPattern_nonWs cs a1 r1 (List.mem_of_mem_head? hh)

/-- Helper: any leftmost salary match contains a non-whitespace character. -/
theorem findSalaryAux_nonWs : ∀ (l m : List Char), findSalaryAux l = some m →
    ∃ c ∈ m, c.isWhitespace = false := by
  intro l
  induction l with
  | nil =>
    intro m h
    exact matchSalaryAt_nonWs [] m h
  | cons c cs ih =>
    intro m h
    unfold findSalaryAux at h
    cases hm : matchSalaryAt (c :: cs) with
    | some mm =>
      rw [hm] at h
      cases h
      exact matchSalaryAt_nonWs _ _ hm
    | none =>
      rw [hm] at h
      exact ih m h

/-- Helper: whitespace collapsing of a text with a non-whitespace character
is nonempty. -/
theorem nwAux_ne_nil : ∀ (l : List Char) (st : NwState),
    (∃ c ∈ l, c.isWhitespace = false) → nwAux l st ≠ [] := by
  intro l
  induction l with
  | nil =>
    intro st h
    obtain ⟨c, hc, _⟩ := h
    simp at hc
  | cons d ds ih =>
    intro st h
    obtain ⟨c, hc, hw⟩ := h
    unfold nwAux
    split
    · rename_i hd
      apply ih
      rcases List.mem_cons.mp hc with rfl | hin
      · rw [hw] at hd
        exact absurd hd (by simp)
      · exact ⟨c, hin, hw⟩
    · split <;> simp

/-- Helper: whitespace collapsing of a string holding a non-whitespace
character yields a nonempty string. -/
theorem normWs_ne_empty (s : String) (h : ∃ c ∈ s.toList, c.isWhitespace = false) :
    normWs s ≠ "" := by
  intro heq
  have hd : nwAux s.toList .start = [] := by
    have := congrArg String.data heq
    exact this
  exact nwAux_ne_nil s.toList .start h hd

/-- Helper: a string-level match of the salary range contains a
non-whitespace character. -/
theorem findSalaryRange_nonWs (s r : String) (h : findSalaryRange s = some r) :
    ∃ c ∈ r.toList, c.isWhitespace = false := by
  unfold findSalaryRange at h
  cases hf : findSalaryAux s.toList with
  | none => rw [hf] at h; simp at h
  | some m =>
    rw [hf] at h
    have hm : (⟨m⟩ : String) = r := by simpa using h
    subst hm
    simpa using findSalaryAux_nonWs _ m hf

/-- Helper: substring tests extend across right-appended text. -/
theorem leadsWith_append (pat l t : List Char) (h : leadsWith pat l = true) :
    leadsWith pat (l ++ t) = true := by
  induction pat generalizing l with
  | nil => simp [leadsWith]
  | cons p ps ih =>
    cases l with
    | nil => simp [leadsWith] at h
    | cons c cs =>
      simp only [leadsWith, Bool.and_eq_true] at h ⊢
      exact ⟨h.1, ih cs h.2⟩

/-- Helper: substring containment extends across right-appended text. -/
theorem containsSub_append_left (h1 h2 pat : List Char)
    (h : containsSub h1 pat = true) : containsSub (h1 ++ h2) pat = true := by
  induction h1 with
  | nil =>
    simp only [containsSub, List.isEmpty_iff] at h
    subst h
    cases h2 with
    | nil => simp [containsSub]
    | cons c cs => simp [containsSub, leadsWith]
  | cons c cs ih =>
    simp only [containsSub, Bool.or_eq_true] at h ⊢
    rcases h with h | h
    · exact Or.inl (leadsWith_append _ _ _ h)
    · exact Or.inr (ih h)

/-- Helper: `lowerStr` distributes over string append. -/
theorem lowerStr_append (a b : String) : lowerStr (a ++ b) = lowerStr a ++ lowerStr b := by
  cases a with
  | mk la =>
    cases b with
    | mk lb =>
      show (⟨(la ++ lb).map Char.toLower⟩ : String) = ⟨la.map Char.toLower ++ lb.map Char.toLower⟩
      rw [List.map_append]

/-- Helper: `strIncludes` is preserved by appending to the right. -/
theorem strIncludes_append_left (s t pat : String) (h : strIncludes s pat = true) :
    strIncludes (s ++ t) pat = true := by
  have : (s ++ t).toList = s.toList ++ t.toList := by
    cases s; cases t; rfl
  unfold strIncludes
  rw [this]
  exact containsSub_append_left _ _ _ h

/-- C8: with a Sydney, Australia location and no explicit currency-range
pattern in the combined job text, the salary fallback is exactly
`AUD 130000`; and for every job context the fallback is a non-empty string. -/
theorem salaryFallbackSydneyAndNonEmpty (jc : JobContext)
    (hloc : jc.location = "Sydney, Australia")
    (hnone : findSalaryRange (lowerStr (jc.location ++ " " ++ jc.description)) = none) :
    getExpectedSalaryFallback jc = "AUD 130000" ∧
      ∀ jc2 : JobContext, getExpectedSalaryFallback jc2 ≠ "" := by
  constructor
  · have haus : strIncludes (lowerStr (jc.location ++ " " ++ jc.description))
        "australia" = true := by
      rw [hloc]
      rw [lowerStr_append, lowerStr_append]
      apply strIncludes_append_left
      apply strIncludes_append_left
      decide
    simp only [getExpectedSalaryFallback]
    rw [hnone, haus]
    simp
  · intro jc2
    simp only [getExpectedSalaryFallback]
    cases hr : findSalaryRange (lowerStr (jc2.location ++ " " ++ jc2.description)) with
    | some rng =>
      simp only [hr]
      exact normWs_ne_empty rng (findSalaryRange_nonWs _ _ hr)
    | none =>
      simp only [hr]
      split
      · simp
      · split <;> simp

/-- C8 witness: the concrete Sydney job context with no salary figure. -/
theorem salaryFallbackSydneyAndNonEmpty_witness :
    getExpectedSalaryFallback jcSydney = "AUD 130000" ∧
      ∀ jc2 : JobContext, getExpectedSalaryFallback jc2 ≠ "" :=
  salaryFallbackSydneyAndNonEmpty jcSydney (by decide) (by decide)

/-- Helper: `toList` distributes over string append. -/
theorem toList_append (s t : String) : (s ++ t).toList = s.toList ++ t.toList := by
  cases s; cases t; rfl

/-- Helper: one `inferFieldAnswer` call either leaves the cache unchanged or
adds exactly one entry, at its own key. -/
theorem inferFieldAnswer_cache_cases (hints : AnswerHints) (jc : JobContext)
    (env : InferEnv) (cache : List (String × String)) (fc ft : String) :
    (inferFieldAnswer hints jc env cache fc ft).cache = cache ∨
      ∃ v, (inferFieldAnswer hints jc env cache fc ft).cache =
        setCache cache (cacheKey ft fc) v := by
  simp only [inferFieldAnswer]
  repeat' split
  all_goals first
    | exact Or.inl rfl
    | exact Or.inr ⟨_, rfl⟩

/-- Helper: lowercased keys that fit inside the truncation bound are distinct
for field types with distinct lowercased forms. -/
theorem cacheKey_ne_of_ne (t1 t2 c : String)
    (h1 : (t1 ++ ":" ++ c).toList.length ≤ 300)
    (h2 : (t2 ++ ":" ++ c).toList.length ≤ 300)
    (hne : lowerStr t1 ≠ lowerStr t2) :
    cacheKey t1 c ≠ cacheKey t2 c := by
  intro heq
  apply hne
  have hl : ((t1 ++ ":" ++ c).toList.take 300).map Char.toLower =
      ((t2 ++ ":" ++ c).toList.take 300).map Char.toLower := congrArg String.data heq
  rw [List.take_of_length_le h1, List.take_of_length_le h2, toList_append,
    toList_append, toList_append, toList_append, List.map_append, List.map_append,
    List.map_append, List.map_append] at hl
  rw [List.append_assoc, List.append_assoc] at hl
  have hcore := List.append_cancel_right hl
  show (⟨t1.toList.map Char.toLower⟩ : String) = ⟨t2.toList.map Char.toLower⟩
  rw [hcore]

/-- C6 counterexample: the declared field types `Text` and `text` are
distinct, yet with the same context string the second call is served the
first call's cached answer (same cache, no recomputation, model untouched). -/
theorem isolationAcrossFieldTypes_counterexample :
    ("Text" : String) ≠ "text" ∧
      (inferFieldAnswer hintsW jcEmpty envNoLlm [] "expected salary" "Text").ans =
        some "140000" ∧
      lookupCache (inferFieldAnswer hintsW jcEmpty envNoLlm [] "expected salary"
          "Text").cache (cacheKey "text" "expected salary") = some "140000" ∧
      (inferFieldAnswer hintsW jcEmpty envNoLlm
          (inferFieldAnswer hintsW jcEmpty envNoLlm [] "expected salary" "Text").cache
          "expected salary" "text").ans = some "140000" ∧
      (inferFieldAnswer hintsW jcEmpty envNoLlm
          (inferFieldAnswer hintsW jcEmpty envNoLlm [] "expected salary" "Text").cache
          "expected salary" "text").cache =
        (inferFieldAnswer hintsW jcEmpty envNoLlm [] "expected salary" "Text").cache := by
  decide

/-- C6 (amended): for field types whose lowercased forms differ and whose
combined `type:context` keys fit within the 300-character truncation, the
cache keys differ, and after a first call from an empty cache the second
type's lookup misses the cache entirely. -/
theorem isolationAcrossFieldTypes (t1 t2 c : String) (hints : AnswerHints)
    (jc : JobContext) (env : InferEnv)
    (h1 : (t1 ++ ":" ++ c).toList.length ≤ 300)
    (h2 : (t2 ++ ":" ++ c).toList.length ≤ 300)
    (hne : lowerStr t1 ≠ lowerStr t2) :
    cacheKey t1 c ≠ cacheKey t2 c ∧
      lookupCache (inferFieldAnswer hints jc env [] c t1).cache (cacheKey t2 c) =
        none := by
  have hkey := cacheKey_ne_of_ne t1 t2 c h1 h2 hne
  refine ⟨hkey, ?_⟩
  rcases inferFieldAnswer_cache_cases hints jc env [] c t1 with hc | ⟨v, hc⟩
  · rw [hc]
    rfl
  · rw [hc]
    simp only [lookupCache, setCache]
    rw [List.find?_cons_of_neg]
    · rfl
    · simp [hkey]

/-- C6 witness: `text` versus `number` with the same short context. -/
theorem isolationAcrossFieldTypes_witness :
    cacheKey "text" "salary" ≠ cacheKey "number" "salary" ∧
      lookupCache (inferFieldAnswer hintsW jcEmpty envNoLlm [] "salary" "text").cache
        (cacheKey "number" "salary") = none :=
  isolationAcrossFieldTypes "text" "number" "salary" hintsW jcEmpty envNoLlm
    (by decide) (by decide) (by decide)

/-- Helper: inserting a truthy value is recovered by lookup at its key. -/
theorem lookup_set_truthy (cache : List (String × String)) (k : String)
    (o : Option String) (h : truthy o = true) :
    lookupCache (setCache cache k (o.getD "")) k = o := by
  cases o with
  | none => simp [truthy] at h
  | some v => simp [lookupCache, setCache, List.find?]

/-- Helper: when a call produces a truthy answer, looking its key up in the
resulting cache returns exactly that answer. -/
theorem inferFieldAnswer_stores (hints : AnswerHints) (jc : JobContext)
    (env : InferEnv) (cache : List (String × String)) (fc ft : String)
    (h : truthy (inferFieldAnswer hints jc env cache fc ft).ans = true) :
    lookupCache (inferFieldAnswer hints jc env cache fc ft).cache (cacheKey ft fc) =
      (inferFieldAnswer hints jc env cache fc ft).ans := by
  simp only [inferFieldAnswer] at h ⊢
  repeat' split
  all_goals simp_all [lookup_set_truthy]

/-- C10: when two calls with the same field type have contexts whose
lowercased `type:context` keys agree on the 300-character truncated prefix,
and the first call produced (and therefore cached) an answer, the second
call returns that cached answer without consulting the model and without
touching the cache. -/
theorem cacheKeyTruncationCollision (hints : AnswerHints) (jc : JobContext)
    (env : InferEnv) (cache : List (String × String)) (t c1 c2 : String)
    (hkey : cacheKey t c1 = cacheKey t c2)
    (hstored : truthy (inferFieldAnswer hints jc env cache c1 t).ans = true) :
    (inferFieldAnswer hints jc env (inferFieldAnswer hints jc env cache c1 t).cache
        c2 t).ans = (inferFieldAnswer hints jc env cache c1 t).ans ∧
      (inferFieldAnswer hints jc env (inferFieldAnswer hints jc env cache c1 t).cache
          c2 t).consulted = false ∧
      (inferFieldAnswer hints jc env (inferFieldAnswer hints jc env cache c1 t).cache
          c2 t).cache = (inferFieldAnswer hints jc env cache c1 t).cache := by
  have hstore := inferFieldAnswer_stores hints jc env cache c1 t hstored
  set r1 := inferFieldAnswer hints jc env cache c1 t with hr1
  have hlook : lookupCache r1.cache (cacheKey t c2) = r1.ans := by
    rw [← hkey]
    exact hstore
  refine ⟨?_, ?_, ?_⟩
  all_goals
    simp only [inferFieldAnswer]
    rw [hlook, hstored]
    simp [hlook]

/-- C10 witness: two 308-character contexts that agree on the truncated key
prefix and differ beyond it share one cache entry. -/
theorem cacheKeyTruncationCollision_witness :
    cacheKey "text" ctxLong1 = cacheKey "text" ctxLong2 ∧
      truthy (inferFieldAnswer hintsW jcEmpty envNoLlm [] ctxLong1 "text").ans = true ∧
      ((inferFieldAnswer hintsW jcEmpty envNoLlm
          (inferFieldAnswer hintsW jcEmpty envNoLlm [] ctxLong1 "text").cache
          ctxLong2 "text").ans =
        (inferFieldAnswer hintsW jcEmpty envNoLlm [] ctxLong1 "text").ans ∧
        (inferFieldAnswer hintsW jcEmpty envNoLlm
            (inferFieldAnswer hintsW jcEmpty envNoLlm [] ctxLong1 "text").cache
            ctxLong2 "text").consulted = false ∧
        (inferFieldAnswer hintsW jcEmpty envNoLlm
            (inferFieldAnswer hintsW jcEmpty envNoLlm [] ctxLong1 "text").cache
            ctxLong2 "text").cache =
          (inferFieldAnswer hintsW jcEmpty envNoLlm [] ctxLong1 "text").cache) :=
  ⟨by decide, by decide,
    cacheKeyTruncationCollision hintsW jcEmpty envNoLlm [] "text" ctxLong1 ctxLong2
      (by decide) (by decide)⟩

end JobAuto
